import Mathlib

/-!
Verification development for the NetBoost adaptive batch downloader.

The definitions below are a shallow embedding of the TypeScript sources under
`entry/src/main/common/`:

* `RangeDownloader.ts` — resumable transfer (`downloadWithResume`);
* `PriorityPool.ts` — the two-level priority pool;
* `WeakNetDetector.ts` — the weak-link detector;
* `Runner.ts` — the batch orchestrator (`runBatch`, `isSmallByName`,
  `waitForDefaultNetChange`).

Machine floating-point numbers are modelled by rational numbers, represented
by the fraction type `Q` below (integer numerator over positive integer
denominator, no normalization, order and equality by cross-multiplication) so
that every concrete computation reduces inside the kernel.  Wall-clock
timestamps and durations that only feed timing fields (`elapsed`, `pausedMs`,
`t`) are not modelled, since no property below depends on them.  Asynchronous
I/O is modelled by passing the environment's responses (server replies, net-id
polls, transfer outcomes) explicitly.
-/

namespace NetBoost

/-! ## RangeDownloader.ts -/

/-- Result record of `downloadWithResume` (`RangeResult` in the source).
The `elapsed` field of the source is wall-clock time and is not modelled. -/
structure RangeResult where
  size : Nat
  usedRange : Bool
  retried : Bool
deriving DecidableEq, Repr

/-- Reply of one Range GET (`downloadRangeAppend` in `HttpDownloader.ts`):
the HTTP status and the bytes the server sent, which the transport appends
to the destination file. -/
structure RangeResp where
  status : Nat
  data : List Nat
deriving DecidableEq, Repr

/-- Abstraction of the HTTP server seen through `HttpDownloader.ts`:
what HEAD reports (`acceptRanges`, `contentLength`; a failed HEAD is
modelled by `acceptRanges = false` and `contentLength = none`, exactly as
the `catch` in `downloadWithResume` produces), how it answers a Range GET
at a given offset, and the body a whole-file GET yields. -/
structure Server where
  acceptRanges : Bool
  contentLength : Option Nat
  range : Nat → RangeResp
  whole : List Nat

/-- The `while` loop of `downloadWithResume` (RangeDownloader.ts lines 44-59).
State: current `offset`, file contents `dst`, running total `totalAppended`.
Each iteration issues one Range GET and appends its data; a 200 status or an
empty reply breaks the loop.  `fuel` bounds the number of iterations (the
source loop is unbounded in time only); `none` means fuel ran out. -/
def rloop (srv : Server) (totalLen : Option Nat) :
    Nat → Nat → List Nat → Nat → Option (Nat × List Nat)
  | 0, _, _, _ => none
  | fuel + 1, offset, dst, appended =>
    if (match totalLen with | none => true | some len => decide (offset < len)) then
      let rr := srv.range offset
      let dst1 := dst ++ rr.data
      let appended1 := appended + rr.data.length
      if rr.status == 200 then
        some (appended1, dst1)
      else
        let offset1 := offset + rr.data.length
        if rr.data.length == 0 then some (appended1, dst1)
        else rloop srv totalLen fuel offset1 dst1 appended1
    else
      some (appended, dst)

/-- Shallow embedding of `downloadWithResume` (RangeDownloader.ts lines 20-62).
Takes the initial contents of the destination file (`[]` when absent) and
returns the transfer record together with the final file contents. -/
def downloadWithResume (srv : Server) (dst0 : List Nat) (fuel : Nat) :
    Option (RangeResult × List Nat) :=
  let supportRange := srv.acceptRanges
  let existed := dst0.length
  if supportRange = false then
    some ({ size := srv.whole.length, usedRange := false,
            retried := decide (0 < existed) }, srv.whole)
  else
    let totalLen := srv.contentLength
    let start :=
      match totalLen with
      | some len => if len < existed then (([] : List Nat), 0) else (dst0, existed)
      | none => (dst0, existed)
    match rloop srv totalLen fuel start.2 start.1 0 with
    | none => none
    | some (appended, dstF) =>
      some ({ size := appended, usedRange := supportRange,
              retried := decide (0 < existed) }, dstF)

/-- A server that advertises Range support on HEAD but ignores the Range
header on GET, answering 200 with the full two-byte body `[10, 20]`. -/
def rangeIgnoringServer : Server :=
  { acceptRanges := true
    contentLength := some 2
    range := fun _ => { status := 200, data := [10, 20] }
    whole := [10, 20] }

/-- An honest Range-capable server for body `body`: HEAD reports
`Accept-Ranges: bytes` and the content length; a Range GET from `off`
answers 206 with the remaining suffix. -/
def honestServer (body : List Nat) : Server :=
  { acceptRanges := true
    contentLength := some body.length
    range := fun off => { status := 206, data := body.drop off }
    whole := body }

/-! ## Claims C1 and C5 -/

/-- C1: the claim says that when a Range GET is answered with status 200 and a
non-empty prefix of the destination existed, the final file holds the full
body exactly once.  The code appends the 200 response body to the existing
prefix before breaking the loop (RangeDownloader.ts lines 46-53), so the
final file is the old prefix concatenated with the full body: with body
`[10, 20]` and prefix `[10]` it ends as `[10, 10, 20]`, not `[10, 20]`.
This evaluates the embedded code at that failing input. -/
theorem C1_status200_concatenates :
    downloadWithResume rangeIgnoringServer [10] 3 =
      some ({ size := 2, usedRange := true, retried := true }, [10, 10, 20]) ∧
    ([10, 10, 20] : List Nat) ≠ [10, 20] := by
  constructor
  · rfl
  · decide

/-- C5 counterexample: for the zero-length body, the first call fully succeeds
(the final file equals the body, trivially), yet the second call returns
`retried = false`, because `retried` is `existed > 0` (RangeDownloader.ts
line 61) and no non-empty prefix exists.  This refutes the claim as stated,
which demands `retried = true` after any fully successful first call. -/
theorem C5_cex_empty_body :
    downloadWithResume (honestServer []) [] 1 =
      some ({ size := 0, usedRange := true, retried := false }, []) ∧
    ({ size := 0, usedRange := true, retried := false } : RangeResult).retried ≠ true := by
  constructor
  · rfl
  · decide

/-- C5 amended: if the first `downloadWithResume` against an honest
Range-capable server with known content length fully succeeded (final file =
body) and the body is non-empty, then a second call leaves the file unchanged,
downloads 0 extra bytes, and reports `retried = true`. -/
theorem C5_resume_idempotent (body d0 : List Nat) (fuel f2 : Nat)
    (r1 : RangeResult) (dst1 : List Nat)
    (hrun : downloadWithResume (honestServer body) d0 fuel = some (r1, dst1))
    (hfull : dst1 = body) (hne : body ≠ []) (hf : 0 < f2) :
    downloadWithResume (honestServer body) dst1 f2 =
      some ({ size := 0, usedRange := true, retried := true }, body) := by
  obtain ⟨f, rfl⟩ : ∃ f, f2 = f + 1 := ⟨f2 - 1, by omega⟩
  subst hfull
  have hlen : 0 < dst1.length := List.length_pos.mpr hne
  simp [downloadWithResume, honestServer, rloop, Nat.lt_irrefl, hlen]

/-- Witness for `C5_resume_idempotent` at body `[1, 2]`, empty initial file. -/
theorem C5_resume_idempotent_witness :
    downloadWithResume (honestServer [1, 2]) [] 3 =
      some ({ size := 2, usedRange := true, retried := false }, [1, 2]) ∧
    ([1, 2] : List Nat) ≠ [] ∧ 0 < 2 ∧
    downloadWithResume (honestServer [1, 2]) [1, 2] 2 =
      some ({ size := 0, usedRange := true, retried := true }, [1, 2]) := by
  refine ⟨by rfl, by decide, by decide, ?_⟩
  exact C5_resume_idempotent [1, 2] [] 3 2
    { size := 2, usedRange := true, retried := false } [1, 2] (by rfl) rfl
    (by decide) (by decide)

/-! ## PriorityPool.ts

The pool executes under single-threaded cooperative scheduling: `push`,
`setLimit` and task-completion callbacks each run the synchronous `pump`
dispatcher to quiescence before the next event is processed.  We model the
pool state plus a dispatch log, and the three externally visible events as a
step function; `complete` is only enabled while a task is running (a `finally`
callback fires once per started task).  The `pumping` re-entrancy sentinel of
the source has no observable effect in this sequential event model and is not
represented.  Tasks are identified by `Nat` tags; the `started` field logs the
dispatch order (the instrumentation the spec's priority scenario asks of the
test tasks). -/

/-- State of one `PriorityPool` (PriorityPool.ts lines 7-12) together with
the dispatch-order log `started`. -/
structure PoolState where
  limit : ℤ
  running : ℤ
  small : List Nat
  large : List Nat
  started : List Nat
deriving DecidableEq, Repr

/-- The `while` loop of `pump` (PriorityPool.ts lines 30-47): while
`running < limit` and a queue is non-empty, pop from `small` first, else from
`large`, increment `running`, and log the start.  Each iteration that
continues removes one queued task, so the queue size bounds the iteration
count; `pump` supplies exactly that fuel. -/
def pumpGo : Nat → ℤ → ℤ → List Nat → List Nat → List Nat → PoolState
  | 0, lim, run, sq, lq, log => ⟨lim, run, sq, lq, log⟩
  | fuel + 1, lim, run, sq, lq, log =>
    if run < lim then
      match sq, lq with
      | t :: rest, lq1 => pumpGo fuel lim (run + 1) rest lq1 (log ++ [t])
      | [], t :: rest => pumpGo fuel lim (run + 1) [] rest (log ++ [t])
      | [], [] => ⟨lim, run, [], [], log⟩
    else ⟨lim, run, sq, lq, log⟩

/-- `pump` run to quiescence. -/
def pump (s : PoolState) : PoolState :=
  pumpGo (s.small.length + s.large.length) s.limit s.running s.small s.large s.started

/-- `setLimit` (PriorityPool.ts lines 16-19): clamp to at least 1, then pump. -/
def setLimitFn (s : PoolState) (n : ℤ) : PoolState :=
  pump { s with limit := max 1 n }

/-- The pool constructor (PriorityPool.ts line 14): `limit = Math.max(1, n)`,
nothing running, both queues empty. -/
def initPool (n : ℤ) : PoolState :=
  ⟨max 1 n, 0, [], [], []⟩

/-- Externally visible pool events: `push(task, small)`, `setLimit(n)`, and
the completion callback of a running task. -/
inductive PEvent where
  | push (id : Nat) (small : Bool)
  | setLimit (n : ℤ)
  | complete
deriving DecidableEq, Repr

/-- One event step.  `push` enqueues and pumps (PriorityPool.ts lines 21-24);
`setLimit` updates and pumps; `complete` decrements `running` and pumps
(the `finally` of PriorityPool.ts lines 38-42), and is only enabled while a
task is running. -/
def applyEvent (s : PoolState) : PEvent → Option PoolState
  | .push id sm =>
    some (pump (if sm then { s with small := s.small ++ [id] }
                else { s with large := s.large ++ [id] }))
  | .setLimit n => some (setLimitFn s n)
  | .complete =>
    if 0 < s.running then some (pump { s with running := s.running - 1 }) else none

/-- Run a sequence of pool events from a state. -/
def runTr (s : PoolState) : List PEvent → Option PoolState
  | [] => some s
  | e :: rest =>
    match applyEvent s e with
    | some s1 => runTr s1 rest
    | none => none

/-- A trace is lowering-free when no `setLimit` event drops the limit below
the running count at the point it is applied. -/
def goodTr (s : PoolState) : List PEvent → Bool
  | [] => true
  | e :: rest =>
    (match e with
     | .setLimit n => decide (s.running ≤ max 1 n)
     | _ => true) &&
    (match applyEvent s e with
     | some s1 => goodTr s1 rest
     | none => false)

theorem pumpGo_limit (fuel : Nat) :
    ∀ lim run sq lq log, (pumpGo fuel lim run sq lq log).limit = lim := by
  induction fuel with
  | zero => intro lim run sq lq log; rfl
  | succ n ih =>
    intro lim run sq lq log
    simp only [pumpGo]
    split
    · rcases sq with _ | ⟨t, rest⟩
      · rcases lq with _ | ⟨t, rest⟩
        · rfl
        · exact ih lim (run + 1) [] rest (log ++ [t])
      · exact ih lim (run + 1) rest lq (log ++ [t])
    · rfl

theorem pumpGo_running_lb (fuel : Nat) :
    ∀ lim run sq lq log, run ≤ (pumpGo fuel lim run sq lq log).running := by
  induction fuel with
  | zero => intro lim run sq lq log; exact le_refl _
  | succ n ih =>
    intro lim run sq lq log
    simp only [pumpGo]
    split
    · rcases sq with _ | ⟨t, rest⟩
      · rcases lq with _ | ⟨t, rest⟩
        · exact le_refl _
        · exact le_trans (by omega) (ih lim (run + 1) [] rest (log ++ [t]))
      · exact le_trans (by omega) (ih lim (run + 1) rest lq (log ++ [t]))
    · exact le_refl _

theorem pumpGo_running_ub (fuel : Nat) :
    ∀ lim run sq lq log, (pumpGo fuel lim run sq lq log).running ≤ max run lim := by
  induction fuel with
  | zero => intro lim run sq lq log; exact le_max_left _ _
  | succ n ih =>
    intro lim run sq lq log
    simp only [pumpGo]
    split
    · rcases sq with _ | ⟨t, rest⟩
      · rcases lq with _ | ⟨t, rest⟩
        · exact le_max_left _ _
        · exact le_trans (ih lim (run + 1) [] rest (log ++ [t])) (by omega)
      · exact le_trans (ih lim (run + 1) rest lq (log ++ [t])) (by omega)
    · exact le_max_left _ _

theorem pump_limit (s : PoolState) : (pump s).limit = s.limit :=
  pumpGo_limit _ _ _ _ _ _

theorem pump_running_lb (s : PoolState) : s.running ≤ (pump s).running :=
  pumpGo_running_lb _ _ _ _ _ _

theorem pump_running_ub (s : PoolState) : (pump s).running ≤ max s.running s.limit :=
  pumpGo_running_ub _ _ _ _ _ _

theorem applyEvent_nonneg {s s1 : PoolState} {e : PEvent}
    (h0 : 0 ≤ s.running) (h : applyEvent s e = some s1) : 0 ≤ s1.running := by
  cases e with
  | push id sm =>
    simp only [applyEvent, Option.some.injEq] at h
    subst h
    split <;> exact le_trans h0 (pump_running_lb _)
  | setLimit n =>
    simp only [applyEvent, Option.some.injEq] at h
    subst h
    exact le_trans h0 (pump_running_lb _)
  | complete =>
    simp only [applyEvent] at h
    split at h
    · simp only [Option.some.injEq] at h
      subst h
      refine le_trans ?_ (pump_running_lb _)
      show (0 : ℤ) ≤ s.running - 1
      omega
    · exact absurd h (by simp)

theorem applyEvent_bound {s s1 : PoolState} {e : PEvent}
    (hinv : s.running ≤ s.limit)
    (hgood : ∀ n, e = .setLimit n → s.running ≤ max 1 n)
    (h : applyEvent s e = some s1) : s1.running ≤ s1.limit := by
  cases e with
  | push id sm =>
    simp only [applyEvent, Option.some.injEq] at h
    subst h
    split <;>
      · refine le_trans (pump_running_ub _) ?_
        rw [pump_limit]
        simp only []
        omega
  | setLimit n =>
    simp only [applyEvent, Option.some.injEq] at h
    subst h
    simp only [setLimitFn]
    have hg := hgood n rfl
    refine le_trans (pump_running_ub _) ?_
    rw [pump_limit]
    show max s.running (max 1 n) ≤ max 1 n
    omega
  | complete =>
    simp only [applyEvent] at h
    split at h
    · simp only [Option.some.injEq] at h
      subst h
      refine le_trans (pump_running_ub _) ?_
      rw [pump_limit]
      simp only []
      omega
    · exact absurd h (by simp)

theorem runTr_inv (tr : List PEvent) :
    ∀ s0 s, 0 ≤ s0.running → runTr s0 tr = some s →
      0 ≤ s.running ∧
      (s0.running ≤ s0.limit → goodTr s0 tr = true → s.running ≤ s.limit) := by
  induction tr with
  | nil =>
    intro s0 s h0 h
    simp only [runTr, Option.some.injEq] at h
    subst h
    exact ⟨h0, fun hb _ => hb⟩
  | cons e rest ih =>
    intro s0 s h0 h
    simp only [runTr] at h
    cases happ : applyEvent s0 e with
    | none => rw [happ] at h; exact absurd h (by simp)
    | some s1 =>
      rw [happ] at h
      have h1 : 0 ≤ s1.running := applyEvent_nonneg h0 happ
      obtain ⟨hn, hb⟩ := ih s1 s h1 h
      refine ⟨hn, fun hinv hgood => ?_⟩
      simp only [goodTr, Bool.and_eq_true] at hgood
      obtain ⟨hstep, hrest⟩ := hgood
      rw [happ] at hrest
      have hstep1 : ∀ n, e = .setLimit n → s0.running ≤ max 1 n := by
        intro n he
        subst he
        simpa using hstep
      exact hb (applyEvent_bound hinv hstep1 happ) hrest

/-! ## Claims C4, C6, C10 -/

/-- C4 counterexample: from a pool built with limit 3, push three large tasks
(all three start, `running = 3`), then `setLimit 2`.  The reached quiescent
state has `running = 3 > 2 = limit`, refuting the claim that
`running ≤ limit` holds at every quiescent point including those reached
after `setLimit` lowers the limit while tasks run. -/
theorem C4_cex_lowered_limit :
    runTr (initPool 3)
      [.push 1 false, .push 2 false, .push 3 false, .setLimit 2] =
      some ⟨2, 3, [], [], [1, 2, 3]⟩ ∧
    ¬ ((3 : ℤ) ≤ 2) := by
  constructor
  · rfl
  · decide

/-- C4 amended: at every quiescent point of every pool run, `0 ≤ running`;
and `running ≤ limit` holds additionally whenever no `setLimit` event of the
run lowered the limit below the running count at its application point
(lowering never cancels running tasks, it only suppresses new starts). -/
theorem C4_pool_invariant (n0 : ℤ) (tr : List PEvent) (s : PoolState)
    (h : runTr (initPool n0) tr = some s) :
    0 ≤ s.running ∧ (goodTr (initPool n0) tr = true → s.running ≤ s.limit) := by
  have h0 : 0 ≤ (initPool n0).running := le_refl 0
  have hb : (initPool n0).running ≤ (initPool n0).limit := by
    simp only [initPool]
    omega
  obtain ⟨hn, hbo⟩ := runTr_inv tr (initPool n0) s h0 h
  exact ⟨hn, hbo hb⟩

/-- Witness for `C4_pool_invariant`: a concrete lowering-free run. -/
theorem C4_pool_invariant_witness :
    runTr (initPool 2) [.push 7 false, .complete] = some ⟨2, 0, [], [], [7]⟩ ∧
    (0 ≤ (⟨2, 0, [], [], [7]⟩ : PoolState).running ∧
     (goodTr (initPool 2) [.push 7 false, .complete] = true →
      (⟨2, 0, [], [], [7]⟩ : PoolState).running ≤ (⟨2, 0, [], [], [7]⟩ : PoolState).limit)) := by
  exact ⟨by rfl, C4_pool_invariant 2 [.push 7 false, .complete] ⟨2, 0, [], [], [7]⟩ (by rfl)⟩

/-- C6: pushing `L1, L2, S1, L3, S2` (ids 1, 2, 3, 4, 5; `S` = small) into a
pool with limit 1 and letting tasks complete dispatches in start order
`L1, S1, S2, L2, L3`: queued small tasks go before queued large ones, and
each class is FIFO. -/
theorem C6_priority_start_order :
    runTr (initPool 1)
      [.push 1 false, .push 2 false, .push 3 true, .push 4 false, .push 5 true,
       .complete, .complete, .complete, .complete] =
      some ⟨1, 1, [], [], [1, 3, 5, 2, 4]⟩ := by
  rfl

/-- C10: for every integer `n` (zero and negatives included) the constructor
and `setLimit` succeed and clamp the limit to `max 1 n`, so the limit is at
least 1 after either operation; `applyEvent` confirms `setLimit` never fails. -/
theorem C10_limit_clamped (n : ℤ) (s : PoolState) :
    (initPool n).limit = max 1 n ∧ 1 ≤ (initPool n).limit ∧
    (setLimitFn s n).limit = max 1 n ∧ 1 ≤ (setLimitFn s n).limit ∧
    applyEvent s (.setLimit n) = some (setLimitFn s n) := by
  refine ⟨rfl, le_max_left _ _, ?_, ?_, rfl⟩
  · rw [setLimitFn, pump_limit]
  · rw [setLimitFn, pump_limit]
    exact le_max_left _ _

/-! ## Exact fraction arithmetic

`Q` models IEEE doubles by exact fractions.  Every operation below keeps the
denominator positive (literals have denominator 1; negation and `abs` touch
only the numerator; sums and products multiply positive denominators;
division flips signs into the numerator), so ordering and equality by
cross-multiplication agree with the rational order.  Division by an exact
zero does not occur in the embedded code: every division there is guarded
(`safeDiv`, `max(0.001, ·)`, window/quartile sizes at least 1, `cusumH * 2`
with the positive default). -/

structure Q where
  num : ℤ
  den : ℤ
deriving DecidableEq, Repr

instance : OfNat Q n := ⟨⟨(n : ℤ), 1⟩⟩

instance : NatCast Q := ⟨fun n => ⟨(n : ℤ), 1⟩⟩

instance : Add Q := ⟨fun a b => ⟨a.num * b.den + b.num * a.den, a.den * b.den⟩⟩

instance : Sub Q := ⟨fun a b => ⟨a.num * b.den - b.num * a.den, a.den * b.den⟩⟩

instance : Mul Q := ⟨fun a b => ⟨a.num * b.num, a.den * b.den⟩⟩

instance : Neg Q := ⟨fun a => ⟨-a.num, a.den⟩⟩

instance : Div Q :=
  ⟨fun a b =>
    let n := a.num * b.den
    let d := a.den * b.num
    if d < 0 then ⟨-n, -d⟩ else ⟨n, d⟩⟩

instance : LE Q := ⟨fun a b => a.num * b.den ≤ b.num * a.den⟩

instance : LT Q := ⟨fun a b => a.num * b.den < b.num * a.den⟩

instance (a b : Q) : Decidable (a ≤ b) :=
  inferInstanceAs (Decidable (a.num * b.den ≤ b.num * a.den))

instance (a b : Q) : Decidable (a < b) :=
  inferInstanceAs (Decidable (a.num * b.den < b.num * a.den))

/-- `Math.max`. -/
instance : Max Q := ⟨fun a b => if a ≤ b then b else a⟩

/-- `Math.min`. -/
instance : Min Q := ⟨fun a b => if a ≤ b then a else b⟩

/-- `Math.abs`. -/
def Q.abs (a : Q) : Q := ⟨|a.num|, a.den⟩

/-- `arr.reduce((x, y) => x + y, 0)`. -/
def qsum (l : List Q) : Q := l.foldl (fun x y => x + y) 0

/-! ## WeakNetDetector.ts

Double-precision floats are modelled by `Q`.  The `Number.isFinite` guard of
`feed` maps NaN/∞ to 0; fraction inputs are always finite, so only the
`Math.max(0, ·)` clamp remains observable. -/

/-- Detector configuration (`WeakParams` with the defaults the constructor
fills in, WeakNetDetector.ts lines 22-34). -/
structure DetCfg where
  ewmaAlpha : Q
  cusumK : Q
  cusumH : Q
  gateRatio : Q
  fuseAlpha : Q
  fuseGamma : Q
  winSize : Nat
  warmupMin : Nat
deriving DecidableEq

/-- The default configuration (constructor defaults: `ewmaAlpha = 0.2`,
`cusumK = 0.3`, `cusumH = 1.2`, `gateRatio = 0.5`, `fuseAlpha = 0.7`,
`fuseGamma = 0.3`, `winSize = 20`, `warmupMin = 10`). -/
def defaultCfg : DetCfg :=
  { ewmaAlpha := ⟨2, 10⟩, cusumK := ⟨3, 10⟩, cusumH := ⟨12, 10⟩,
    gateRatio := ⟨5, 10⟩, fuseAlpha := ⟨7, 10⟩, fuseGamma := ⟨3, 10⟩,
    winSize := 20, warmupMin := 10 }

/-- Mutable state of one `WeakNetDetector` (WeakNetDetector.ts lines 15-20).
Failure flags are stored as 0/1 fractions so the window mean is direct. -/
structure DetState where
  ewma : Q
  hist : List Q
  failWin : List Q
  cusumPos : Q
  cusumNeg : Q
deriving DecidableEq

/-- The detector's initial state (field initializers / `reset()`). -/
def initDet : DetState := ⟨0, [], [], 0, 0⟩

/-- One detector verdict (`WeakDecision`). -/
structure WeakDecision where
  isWeak : Bool
  confidence : Q
deriving DecidableEq

/-- `clamp01` (WeakNetDetector.ts line 36). -/
def clamp01 (x : Q) : Q := max 0 (min 1 x)

/-- `1e-3`. -/
def qMilli : Q := ⟨1, 1000⟩

/-- `1e-6`. -/
def qMicro : Q := ⟨1, 1000000⟩

/-- `safeDiv` (WeakNetDetector.ts lines 37-39): a divisor of magnitude below
`1e-6` is replaced by signed `1e-6`. -/
def safeDiv (a b : Q) : Q :=
  if b.abs < qMicro then
    if 0 ≤ b then a / qMicro else a / (-qMicro)
  else a / b

/-- Ascending insertion, modelling `Array.sort((a, b) => a - b)`. -/
def insertAsc (x : Q) : List Q → List Q
  | [] => [x]
  | y :: ys => if x ≤ y then x :: y :: ys else y :: insertAsc x ys

/-- Ascending sort of the history. -/
def sortAsc (l : List Q) : List Q := l.foldr insertAsc []

/-- `baseline()` (WeakNetDetector.ts lines 40-48): mean of the lowest 25% of
the history (at least one sample); 0 on empty history.  `Math.floor(n * 0.25)`
is exactly `n / 4` on naturals. -/
def baseline (hist : List Q) : Q :=
  let n := hist.length
  if n = 0 then 0
  else
    let k := max 1 (n / 4)
    let low := (sortAsc hist).take k
    qsum low / (k : Q)

/-- Shallow embedding of `feed` (WeakNetDetector.ts lines 50-91), returning
the verdict and the updated state. -/
def feed (cfg : DetCfg) (st : DetState) (speedKBps : Q) (ok : Bool) :
    WeakDecision × DetState :=
  let v := max 0 speedKBps
  let ewma1 := if st.hist.length = 0 then v
               else cfg.ewmaAlpha * v + (1 - cfg.ewmaAlpha) * st.ewma
  let hist1 := st.hist ++ [v]
  let fw0 := st.failWin ++ [if ok then 0 else 1]
  let fw1 := if cfg.winSize < fw0.length then fw0.tail else fw0
  let failRate := if fw1.length = 0 then 0 else qsum fw1 / (fw1.length : Q)
  let baseRaw := baseline hist1
  let base := if 0 < baseRaw then baseRaw else (if 0 < v then v else qMilli)
  let x := safeDiv (v - base) (max qMilli base)
  let cp := max 0 (st.cusumPos + (x - cfg.cusumK))
  let cn := min 0 (st.cusumNeg + (x + cfg.cusumK))
  let change := decide (cfg.cusumH < cp) || decide (cfg.cusumH < cn.abs)
  let zSpeed := safeDiv (v - base) (max qMilli base)
  let score := cfg.fuseAlpha * (-zSpeed) + cfg.fuseGamma * failRate
  let weakByScore := decide ((⟨5, 10⟩ : Q) < score)
  let gate := decide (ewma1 < cfg.gateRatio * base)
  let enough := decide (max 3 cfg.warmupMin ≤ hist1.length)
  let isWeak := enough && change && weakByScore && gate
  let confDrop := clamp01 (if 0 < base then (base - ewma1) / base else 0)
  let cusumMag := min 1 (max 0 ((max cp cn.abs) / (cfg.cusumH * 2)))
  let confidence := clamp01 ((⟨45, 100⟩ : Q) * confDrop + (⟨35, 100⟩ : Q) * failRate
    + (⟨20, 100⟩ : Q) * cusumMag)
  let cp1 := if isWeak then cp * ⟨1, 4⟩ else cp
  let cn1 := if isWeak then cn * ⟨1, 4⟩ else cn
  ({ isWeak := isWeak, confidence := confidence },
   { ewma := ewma1, hist := hist1, failWin := fw1, cusumPos := cp1, cusumNeg := cn1 })

/-! ## Claim C7 -/

/-- C7: a `feed` call whose history (including the sample just observed, the
`|history|` the verdict step reads) is still shorter than `warmupMin` returns
`isWeak = false`, whatever the sample values and `ok` flags: the `enough`
conjunct of the verdict is false below warm-up. -/
theorem C7_warmup_no_weak (cfg : DetCfg) (st : DetState) (v : Q) (ok : Bool)
    (h : st.hist.length + 1 < cfg.warmupMin) :
    (feed cfg st v ok).1.isWeak = false := by
  have hlen : ¬ (max 3 cfg.warmupMin ≤ (st.hist ++ [max 0 v]).length) := by
    intro hc
    have h3 := le_trans (le_max_right 3 cfg.warmupMin) hc
    simp only [List.length_append, List.length_cons, List.length_nil] at h3
    omega
  simp only [feed, decide_eq_false hlen, Bool.false_and]

/-- Witness for `C7_warmup_no_weak`: the very first sample (history length 1
after the push, below the default warm-up of 10) is never weak. -/
theorem C7_warmup_no_weak_witness :
    initDet.hist.length + 1 < defaultCfg.warmupMin ∧
    (feed defaultCfg initDet 50 true).1.isWeak = false :=
  ⟨by decide, C7_warmup_no_weak defaultCfg initDet 50 true (by decide)⟩

/-! ## Runner.ts

The orchestrator `runBatch` drives per-URL tasks through the pool.  Under the
single-threaded cooperative scheduler, each task body's state mutations happen
atomically between awaits; we model the observable part of one task body
(Runner.ts lines 103-161) as a step function on the orchestrator state,
parameterized by the environment's responses: the transfer outcome, the
default-net id captured before the settings prompt, and the net-ids seen by
the link-change poll.  Wall-clock fields (`t`, `pausedMs`, timestamps) and the
`NetProbe` side effects (a 1-byte ranged GET plus counters, swallowing all
errors) do not influence any claim below and are not modelled. -/

/-- The two batch modes (Runner.ts line 15). -/
inductive Mode where
  | WIFI_ONLY
  | AUTO_SWITCH
deriving DecidableEq, Repr

/-- Pool concurrency before migration (Runner.ts line 26). -/
def CONC_BEFORE : ℤ := 3

/-- Pool concurrency while draining (Runner.ts line 27). -/
def CONC_WEAK : ℤ := 2

/-- Pool concurrency after the switch (Runner.ts line 28). -/
def CONC_AFTER : ℤ := 8

/-- Lifetime migration budget (Runner.ts line 29). -/
def MAX_PROMPTS : ℤ := 1

/-- `kbps` (Runner.ts line 35): `(bytes / 1024) / Math.max(0.001, sec)`. -/
def kbps (bytes : Nat) (sec : Q) : Q :=
  ((bytes : Q) / 1024) / max qMilli sec

/-- `waitForDefaultNetChange` (Runner.ts lines 37-45): poll the default net id
once per second until the 120 s deadline; succeed at the first id that is
non-zero and differs from `prevNetId`, otherwise time out with `false`.
`polls` lists the ids the environment supplies at the successive polls; the
deadline caps the loop at 120 observations. -/
def waitForDefaultNetChange (prevNetId : ℤ) (polls : List ℤ) : Bool :=
  (polls.take 120).any (fun cur => cur != 0 && cur != prevNetId)

/-- Does `needle` occur at the head of `hay`? -/
def leadsList : List Char → List Char → Bool
  | [], _ => true
  | _ :: _, [] => false
  | a :: as, b :: bs => a == b && leadsList as bs

/-- Substring occurrence on character lists (JS `String.includes`). -/
def hasSub (needle : List Char) : List Char → Bool
  | [] => leadsList needle []
  | b :: t => leadsList needle (b :: t) || hasSub needle t

/-- JS `String.includes`. -/
def strContains (s sub : String) : Bool := hasSub sub.toList s.toList

/-- ASCII lowercasing (JS `toLowerCase`; the source URLs are ASCII). -/
def lowerStr (s : String) : String := String.mk (s.toList.map Char.toLower)

/-- Suffix test (JS `endsWith`). -/
def endsWithStr (s suf : String) : Bool :=
  leadsList suf.toList.reverse s.toList.reverse

/-- Numeric value of a decimal digit character. -/
def digitVal (c : Char) : Nat := c.toNat - 48

/-- The regex `/img_(\d{3})\.jpg$/` of `isSmallByName`: when the string ends
in `img_` followed by three digits and `.jpg`, return those three digits as a
number. -/
def imgIdxAtEnd (s : String) : Option Nat :=
  let cs := s.toList
  if 11 ≤ cs.length then
    match cs.drop (cs.length - 11) with
    | 'i' :: 'm' :: 'g' :: '_' :: a :: b :: c :: '.' :: 'j' :: 'p' :: 'g' :: [] =>
      if a.isDigit && b.isDigit && c.isDigit then
        some (digitVal a * 100 + digitVal b * 10 + digitVal c)
      else none
    | _ => none
  else none

/-- Shallow embedding of `isSmallByName` (Runner.ts lines 57-63).  Note that
the source lowercases and scans the whole URL `u`, not its basename. -/
def isSmallByName (u : String) : Bool :=
  let n := lowerStr u
  if strContains n "thumb" || strContains n "_s" || strContains n "_small"
      || endsWithStr n "_128.jpg" then true
  else
    match imgIdxAtEnd n with
    | some idx => if idx ≤ 16 then true else false
    | none => false

/-- Modelled from the spec (claim C9's reading): the same small-file patterns
applied to the URL's basename only — the substring after the last slash. -/
def basenameOf (u : String) : String :=
  String.mk (u.toList.foldl (fun acc c => if c == '/' then [] else acc ++ [c]) [])

/-- Modelled from the spec (claim C9's reading): small iff the basename
contains `thumb`, `_s`, `_small`, ends in `_128.jpg`, or ends in
`img_DDD.jpg` with `DDD ≤ 16`. -/
def smallByBasename (u : String) : Bool :=
  let b := lowerStr (basenameOf u)
  strContains b "thumb" || strContains b "_s" || strContains b "_small"
    || endsWithStr b "_128.jpg"
    || (match imgIdxAtEnd b with
        | some idx => decide (idx ≤ 16)
        | none => false)

/-- The amended characterization: the patterns applied to the full lowercased
URL, as the source does. -/
def smallByFullUrl (u : String) : Bool :=
  let n := lowerStr u
  (strContains n "thumb" || strContains n "_s" || strContains n "_small"
    || endsWithStr n "_128.jpg")
    || (match imgIdxAtEnd n with
        | some idx => decide (idx ≤ 16)
        | none => false)

/-- `String(i).padStart(3, '0')` for the URL names. -/
def pad3 (i : Nat) : String :=
  let s := toString i
  if s.length < 3 then String.mk (List.replicate (3 - s.length) '0') ++ s else s

/-- `baseUrl.replace(/\/$/, '')`: strip one trailing slash. -/
def stripTrailingSlash (s : String) : String :=
  if endsWithStr s "/" then String.mk s.toList.dropLast else s

/-- One generated URL (Runner.ts lines 74-77). -/
def mkUrl (baseUrl : String) (i : Nat) : String :=
  stripTrailingSlash baseUrl ++ "/" ++ "img_" ++ pad3 i ++ ".jpg"

/-- The URL list built at batch entry: `img_001.jpg … img_NNN.jpg`.  The
source loop `for (let i = 1; i <= count; i++)` runs `max 0 count` times. -/
def buildUrls (baseUrl : String) (count : ℤ) : List String :=
  (List.range count.toNat).map (fun j => mkUrl baseUrl (j + 1))

/-- One `perFile` entry (Runner.ts lines 17-24).  The wall-clock field `t`
(`-1` on failure) is not modelled; failure entries are recognizable by
`usedRange = none`. -/
structure PerFileRec where
  url : String
  bytes : Nat
  pathCell : Bool
  usedRange : Option Bool
  retried : Option Bool
deriving DecidableEq, Repr

/-- The orchestrator's mutable state (Runner.ts lines 81-95): aggregate bytes,
the speed history, the detector, the migration flags and budget, the pool
limit as driven by `runBatch`, and the `perFile` entries written so far
(tagged with their URL index). -/
structure RunnerState where
  totalBytes : Nat
  speeds : List Q
  det : DetState
  switched : Bool
  switching : Bool
  promptsLeft : ℤ
  weakDetectIndex : ℤ
  poolLimit : ℤ
  perFile : List (Nat × PerFileRec)
deriving DecidableEq

/-- The orchestrator state right after setup (Runner.ts lines 82-95): pool
built with `CONC_BEFORE`, fresh detector, `promptsLeft = MAX_PROMPTS`,
nothing switched, `weakDetectIndex = -1`. -/
def initRunner : RunnerState :=
  { totalBytes := 0, speeds := [], det := initDet, switched := false,
    switching := false, promptsLeft := MAX_PROMPTS, weakDetectIndex := -1,
    poolLimit := max 1 CONC_BEFORE, perFile := [] }

/-- Outcome of `downloadWithResume` for one URL as the task body observes it:
success carries the transfer record fields the task reads (`size`,
`usedRange`, `retried`) and the elapsed seconds used for the speed; `err` is
any thrown error. -/
inductive TransferOutcome where
  | ok (size : Nat) (usedRange retried : Bool) (tSec : Q)
  | err

/-- Shallow embedding of one task body's state processing (Runner.ts lines
107-160): record the per-file entry, push the speed, and — only when
`mode = AUTO_SWITCH` and not yet switched/switching with prompts left — feed
the detector and, on a weak verdict, run the staged migration: lower the pool
limit to `CONC_WEAK`, wait for the drain (no orchestrator-state effect), poll
for a default-net change, then unconditionally mark `switched`, decrement
`promptsLeft` and raise the limit to `CONC_AFTER`.  On failure, record the
entry and feed `(0, ok := false)` unconditionally.  Returns the new state and
the list of `(speed, ok)` arguments passed to `detector.feed`. -/
def taskStep (mode : Mode) (i : Nat) (u : String) (st : RunnerState)
    (outcome : TransferOutcome) (prevNetId : ℤ) (polls : List ℤ) :
    RunnerState × List (Q × Bool) :=
  match outcome with
  | .ok size ur rt t =>
    let entry : PerFileRec :=
      { url := u, bytes := size, pathCell := st.switched,
        usedRange := some ur, retried := some rt }
    let spd := kbps size t
    let st1 := { st with totalBytes := st.totalBytes + size,
                         perFile := st.perFile ++ [(i, entry)],
                         speeds := st.speeds ++ [spd] }
    if mode = Mode.AUTO_SWITCH ∧ st.switched = false ∧ st.switching = false
        ∧ 0 < st.promptsLeft then
      let fd := feed defaultCfg st1.det spd true
      let st2 := { st1 with det := fd.2 }
      if fd.1.isWeak then
        let st3 := { st2 with switching := true, weakDetectIndex := (i : ℤ),
                              poolLimit := max 1 CONC_WEAK }
        let _netChanged := waitForDefaultNetChange prevNetId polls
        ({ st3 with switched := true, promptsLeft := st3.promptsLeft - 1,
                    poolLimit := max 1 CONC_AFTER, switching := false },
         [(spd, true)])
      else (st2, [(spd, true)])
    else (st1, [])
  | .err =>
    let entry : PerFileRec :=
      { url := u, bytes := 0, pathCell := st.switched,
        usedRange := none, retried := none }
    let fd := feed defaultCfg st.det 0 false
    ({ st with perFile := st.perFile ++ [(i, entry)], det := fd.2 },
     [((0 : Q), false)])

/-- The batch driver (Runner.ts lines 65-168) under the sequential schedule
(tasks complete in enqueue order — one admissible cooperative interleaving).
Entry behaviour — URL construction and the absence of any configuration
validation — is schedule-independent.  The environment supplies each task's
transfer outcome and net-poll observations. -/
def runBatchSeq (baseUrl : String) (count : ℤ) (mode : Mode)
    (outcome : Nat → TransferOutcome) (prevNetId : Nat → ℤ)
    (polls : Nat → List ℤ) : RunnerState :=
  let urls := buildUrls baseUrl count
  (List.range urls.length).foldl
    (fun st i =>
      (taskStep mode i (urls.getD i "") st (outcome i) (prevNetId i) (polls i)).1)
    initRunner

/-! ## Claims C2, C3, C8, C9 -/

/-- A reachable detector state about to fire: 46 successful samples at
100 kB/s followed by 5 at 1 kB/s.  The next successful sample at 1 kB/s
yields `isWeak = true`. -/
def c2det : DetState :=
  (List.replicate 46 (100 : Q) ++ List.replicate 5 (1 : Q)).foldl
    (fun st v => (feed defaultCfg st v true).2) initDet

/-- The orchestrator state just before the triggering transfer: fresh batch
state with the detector at `c2det`. -/
def c2st : RunnerState := { initRunner with det := c2det }

/-- The state after the triggering transfer: a successful 1024-byte, 1-second
transfer (speed 1 kB/s) in `AUTO_SWITCH` mode at URL index 20, with
`prevNetId = 7` and a link-change poll that sees no observation before the
cap. -/
def c2res : RunnerState :=
  (taskStep Mode.AUTO_SWITCH 20 "http://h/img_021.jpg" c2st
    (.ok 1024 true false 1) 7 []).1

set_option maxRecDepth 10000 in
/-- C2 counterexample: with the detector about to fire, a successful transfer
in `AUTO_SWITCH` mode enters the migration protocol (`weakDetectIndex` is
set), the link-change poll observes no change within the cap (it returns
`false`), and yet the state does not remain `Draining`: the task
unconditionally sets the `switched` marker and decrements `promptsLeft`
(Runner.ts lines 145-151 ignore the poll's result).  This refutes the claim
that on timeout `switched` stays unset and `promptsLeft` undecremented. -/
theorem C2_cex_timeout_advances :
    waitForDefaultNetChange 7 [] = false ∧
    c2res.weakDetectIndex = 20 ∧ c2res.switched = true ∧ c2res.promptsLeft = 0 := by
  refine ⟨rfl, ?_, ?_, ?_⟩ <;> decide

/-- C2 amended: when a successful `AUTO_SWITCH` transfer triggers a weak
verdict and the link-change poll times out without observing a change, the
batch is not aborted (the task completes normally and later tasks still
run — `taskStep` is total), but the migration state does not remain
`Draining`: the task still sets `switched`, decrements `promptsLeft`,
raises the pool limit to `CONC_AFTER` and clears `switching`. -/
theorem C2_timeout_still_switches (i : Nat) (u : String) (st : RunnerState)
    (size : Nat) (ur rt : Bool) (t : Q) (prevNetId : ℤ) (polls : List ℤ)
    (hsw : st.switched = false) (hsg : st.switching = false)
    (hp : 0 < st.promptsLeft)
    (hweak : (feed defaultCfg st.det (kbps size t) true).1.isWeak = true)
    (htimeout : waitForDefaultNetChange prevNetId polls = false) :
    (taskStep Mode.AUTO_SWITCH i u st (.ok size ur rt t) prevNetId polls).1.switched
        = true ∧
    (taskStep Mode.AUTO_SWITCH i u st (.ok size ur rt t) prevNetId polls).1.promptsLeft
        = st.promptsLeft - 1 ∧
    (taskStep Mode.AUTO_SWITCH i u st (.ok size ur rt t) prevNetId polls).1.poolLimit
        = max 1 CONC_AFTER ∧
    (taskStep Mode.AUTO_SWITCH i u st (.ok size ur rt t) prevNetId polls).1.switching
        = false ∧
    (taskStep Mode.AUTO_SWITCH i u st (.ok size ur rt t) prevNetId polls).1.weakDetectIndex
        = (i : ℤ) := by
  simp only [taskStep]
  rw [if_pos ⟨trivial, hsw, hsg, hp⟩]
  simp [hweak]

set_option maxRecDepth 10000 in
/-- Witness for `C2_timeout_still_switches` at the concrete firing state. -/
theorem C2_timeout_still_switches_witness :
    c2st.switched = false ∧ c2st.switching = false ∧ 0 < c2st.promptsLeft ∧
    (feed defaultCfg c2st.det (kbps 1024 1) true).1.isWeak = true ∧
    waitForDefaultNetChange 7 [] = false ∧
    ((taskStep Mode.AUTO_SWITCH 20 "http://h/img_021.jpg" c2st
        (.ok 1024 true false 1) 7 []).1.switched = true ∧
     (taskStep Mode.AUTO_SWITCH 20 "http://h/img_021.jpg" c2st
        (.ok 1024 true false 1) 7 []).1.promptsLeft = c2st.promptsLeft - 1 ∧
     (taskStep Mode.AUTO_SWITCH 20 "http://h/img_021.jpg" c2st
        (.ok 1024 true false 1) 7 []).1.poolLimit = max 1 CONC_AFTER ∧
     (taskStep Mode.AUTO_SWITCH 20 "http://h/img_021.jpg" c2st
        (.ok 1024 true false 1) 7 []).1.switching = false ∧
     (taskStep Mode.AUTO_SWITCH 20 "http://h/img_021.jpg" c2st
        (.ok 1024 true false 1) 7 []).1.weakDetectIndex = ((20 : Nat) : ℤ)) := by
  refine ⟨rfl, rfl, by decide, by decide, rfl, ?_⟩
  exact C2_timeout_still_switches 20 "http://h/img_021.jpg" c2st 1024 true false 1 7 []
    rfl rfl (by decide) (by decide) rfl

/-- C3 counterexample: a successful transfer in `WIFI_ONLY` mode records its
speed but performs no `detector.feed` call at all (the feed is guarded by
`mode === AUTO_SWITCH && !switched && !switching && promptsLeft > 0`,
Runner.ts line 119), refuting the claim that every successful transfer in
either mode feeds `(speed, _, ok = true)` to the detector. -/
theorem C3_cex_wifi_only_no_feed :
    (taskStep Mode.WIFI_ONLY 0 "http://h/img_001.jpg" initRunner
      (.ok 2048 true false 1) 1 []).2 = [] ∧
    (taskStep Mode.WIFI_ONLY 0 "http://h/img_001.jpg" initRunner
      (.ok 2048 true false 1) 1 []).1.speeds = [kbps 2048 1] := by
  exact ⟨rfl, rfl⟩

/-- C3 amended: every successful transfer computes
`speed = bytes/1024 / max(0.001, elapsed)` and appends it to the speed
history, but the `(speed, _, ok = true)` detector feed happens exactly when
`mode = AUTO_SWITCH`, the batch has neither switched nor is switching, and
prompts remain; otherwise (in `WIFI_ONLY` mode, during, or after migration)
the detector is not consulted. -/
theorem C3_feed_guarded (mode : Mode) (i : Nat) (u : String) (st : RunnerState)
    (size : Nat) (ur rt : Bool) (t : Q) (prevNetId : ℤ) (polls : List ℤ) :
    (taskStep mode i u st (.ok size ur rt t) prevNetId polls).1.speeds
      = st.speeds ++ [kbps size t] ∧
    (taskStep mode i u st (.ok size ur rt t) prevNetId polls).2
      = if mode = Mode.AUTO_SWITCH ∧ st.switched = false ∧ st.switching = false
            ∧ 0 < st.promptsLeft
        then [(kbps size t, true)] else [] := by
  by_cases h : mode = Mode.AUTO_SWITCH ∧ st.switched = false ∧ st.switching = false
      ∧ 0 < st.promptsLeft
  · rw [if_pos h]
    simp only [taskStep]
    rw [if_pos h]
    by_cases hw : (feed defaultCfg st.det (kbps size t) true).1.isWeak
    · simp only [hw]
      exact ⟨rfl, rfl⟩
    · simp only [Bool.not_eq_true] at hw
      simp only [hw]
      exact ⟨rfl, rfl⟩
  · rw [if_neg h]
    simp only [taskStep]
    rw [if_neg h]
    exact ⟨rfl, rfl⟩

/-- C8 counterexample: `runBatch` performs no configuration validation.  With
the invalid configuration `count = 0` it returns the normal empty result —
the untouched initial state: `perFile = []`, `totalBytes = 0` — instead of
surfacing a configuration error (the source has no validation or throw on
this path, Runner.ts lines 65-96). -/
theorem C8_cex_count_zero_normal_result :
    runBatchSeq "http://h" 0 Mode.WIFI_ONLY (fun _ => .err) (fun _ => 1)
      (fun _ => []) = initRunner ∧
    initRunner.perFile = [] ∧ initRunner.totalBytes = 0 := by
  exact ⟨rfl, rfl, rfl⟩

/-- C8 amended: `runBatch` does not fail fast on invalid configuration: for
every `count ≤ 0` (and any mode) it builds an empty URL list and returns the
normal empty result unchanged from the initial state. -/
theorem C8_no_fail_fast (baseUrl : String) (count : ℤ) (mode : Mode)
    (outcome : Nat → TransferOutcome) (prevNetId : Nat → ℤ)
    (polls : Nat → List ℤ) (h : count ≤ 0) :
    buildUrls baseUrl count = [] ∧
    runBatchSeq baseUrl count mode outcome prevNetId polls = initRunner := by
  have h0 : count.toNat = 0 := Int.toNat_of_nonpos h
  have hurls : buildUrls baseUrl count = [] := by
    simp [buildUrls, h0]
  refine ⟨hurls, ?_⟩
  simp [runBatchSeq, hurls]

/-- Witness for `C8_no_fail_fast` at `count = -2`. -/
theorem C8_no_fail_fast_witness :
    (-2 : ℤ) ≤ 0 ∧
    (buildUrls "http://x" (-2) = [] ∧
     runBatchSeq "http://x" (-2) Mode.AUTO_SWITCH (fun _ => .err) (fun _ => 0)
       (fun _ => []) = initRunner) := by
  exact ⟨by decide, C8_no_fail_fast "http://x" (-2) Mode.AUTO_SWITCH
    (fun _ => .err) (fun _ => 0) (fun _ => []) (by decide)⟩

/-- C9 counterexample: the orchestrator-built URL
`http://h/thumbs/img_020.jpg` (baseUrl `http://h/thumbs`, index 20) is tagged
small by the source — `isSmallByName` scans the whole lowercased URL and
finds `thumb` in the path — while the claim's basename reading makes it
large: the basename `img_020.jpg` matches none of the patterns and
`020 > 16`. -/
theorem C9_cex_path_substring :
    (buildUrls "http://h/thumbs" 20).getD 19 "" = "http://h/thumbs/img_020.jpg" ∧
    isSmallByName "http://h/thumbs/img_020.jpg" = true ∧
    smallByBasename "http://h/thumbs/img_020.jpg" = false := by
  refine ⟨by decide, by decide, by decide⟩

/-- C9 amended: the small-file heuristic applies to the full lowercased URL,
not only the basename: a URL is tagged small iff the lowercased URL contains
`thumb`, `_s` or `_small`, ends with `_128.jpg`, or ends with `img_DDD.jpg`
with `DDD ≤ 16`. -/
theorem C9_full_url_heuristic (u : String) :
    isSmallByName u = smallByFullUrl u := by
  simp only [isSmallByName, smallByFullUrl]
  cases hA : (strContains (lowerStr u) "thumb" || strContains (lowerStr u) "_s"
      || strContains (lowerStr u) "_small" || endsWithStr (lowerStr u) "_128.jpg") with
  | true => simp [hA]
  | false =>
    simp only [hA, Bool.false_eq_true, if_false, Bool.false_or]
    cases him : imgIdxAtEnd (lowerStr u) with
    | none => rfl
    | some idx =>
      by_cases hi : idx ≤ 16
      · simp [hi]
      · simp [hi]

end NetBoost
